import Mathlib

/-!
Verification development for the validation/schema/streaming engine
documented by the pedantigo documentation site.  The repository under
study is the documentation itself; the engine it describes is Go code
that is not part of the repository, so every operational definition
below is modelled from the specification and from the behaviour the
documentation pages describe, and is marked as such.
-/

namespace Pedantigo

/-- Modelled from the spec: the generic keyed-map representation a
standard JSON decoder produces (spec section 6 treats the decoder as an
out-of-scope collaborator producing such values). -/
inductive Json where
  | null
  | bool (b : Bool)
  | num (n : Int)
  | str (s : String)
  | arr (elems : List Json)
  | obj (fields : List (String × Json))
deriving Repr

mutual

/-- Modelled from the spec: boolean equality of decoded values, used by
the `unique` constraint (elements are compared by equality). -/
def Json.beq : Json → Json → Bool
  | .null, .null => true
  | .bool a, .bool b => a == b
  | .num a, .num b => a == b
  | .str a, .str b => a == b
  | .arr xs, .arr ys => beqJsonList xs ys
  | .obj xs, .obj ys => beqJsonFields xs ys
  | _, _ => false

/-- Elementwise equality of decoded-value lists. -/
def beqJsonList : List Json → List Json → Bool
  | [], [] => true
  | x :: xs, y :: ys => Json.beq x y && beqJsonList xs ys
  | _, _ => false

/-- Elementwise equality of decoded-object field lists. -/
def beqJsonFields : List (String × Json) → List (String × Json) → Bool
  | [], [] => true
  | (k, x) :: xs, (l, y) :: ys => k == l && (Json.beq x y && beqJsonFields xs ys)
  | _, _ => false

end

instance : BEq Json := ⟨Json.beq⟩

/-- Whether a decoded value is the explicit JSON null. -/
def Json.isNull : Json → Bool
  | .null => true
  | _ => false

/-- Modelled from the spec: the Constraint kinds exercised by the
documented examples (required, min, max, len bounds, uniqueness with an
optional struct-field projection).  Format predicates are opaque
collaborators and are not needed by any claim. -/
inductive Constraint where
  | required
  | min (n : Nat)
  | max (n : Nat)
  | len (n : Nat)
  | unique (field : Option String)
deriving Repr, DecidableEq

/-- Modelled from the spec: one ValidationError entry
{fieldPath, constraintKind, message}. -/
structure FieldError where
  path : String
  kind : String
  message : String
deriving Repr, DecidableEq

/-- Modelled from the spec: the size a bound constraint measures —
string length for strings, element count for collections and maps
(collection-size constraints count elements, never recurse into them). -/
def boundMeasure : Json → Option Int
  | .str s => some (s.length : Int)
  | .num n => some n
  | .arr xs => some (xs.length : Int)
  | .obj fs => some (fs.length : Int)
  | _ => none

/-- Modelled from the spec: the uniqueness projection — for
`unique=FieldName` on struct elements the named field is extracted and
compared instead of whole-element equality. -/
def projectElem (field : Option String) (v : Json) : Json :=
  match field, v with
  | some f, .obj fs => ((fs.lookup f).getD .null)
  | _, _ => v

/-- Modelled from the spec: the indices of duplicate elements — an index
whose projection already occurred at a smaller index.  Recursion carries
the projections seen so far and the current index. -/
def dupIndicesAux (field : Option String) : List Json → List Json → Nat → List Nat
  | _, [], _ => []
  | seen, x :: xs, i =>
    let p := projectElem field x
    if seen.contains p then
      i :: dupIndicesAux field seen xs (i + 1)
    else
      dupIndicesAux field (p :: seen) xs (i + 1)

/-- Modelled from the spec: duplicate indices of a collection under the
`unique` constraint. -/
def dupIndices (field : Option String) (xs : List Json) : List Nat :=
  dupIndicesAux field [] xs 0

/-- Modelled from the spec: the printed name of a constraint kind, used
in the constraintKind slot of a ValidationError. -/
def kindName : Constraint → String
  | .required => "required"
  | .min _ => "min"
  | .max _ => "max"
  | .len _ => "len"
  | .unique _ => "unique"

/-- Modelled from the spec: evaluating one constraint against a present
value, yielding the violated-constraint errors (empty list when the
constraint holds).  An explicit null fails `required` during unmarshal;
bound constraints measure strings by length and collections by element
count; `unique` flags each duplicate index with a bracketed path. -/
def checkConstraint (path : String) (c : Constraint) (v : Json) : List FieldError :=
  match c with
  | .required =>
    if v.isNull then [⟨path, "required", "field is required"⟩] else []
  | .min n =>
    match boundMeasure v with
    | some m => if m < (n : Int) then [⟨path, "min", "must be at least " ++ toString n⟩] else []
    | none => []
  | .max n =>
    match boundMeasure v with
    | some m => if (n : Int) < m then [⟨path, "max", "must be at most " ++ toString n⟩] else []
    | none => []
  | .len n =>
    match boundMeasure v with
    | some m => if m ≠ (n : Int) then [⟨path, "len", "must have exactly " ++ toString n⟩] else []
    | none => []
  | .unique field =>
    match v with
    | .arr xs =>
      (dupIndices field xs).map
        (fun i => ⟨path ++ "[" ++ toString i ++ "]", "unique", "duplicate value"⟩)
    | _ => []

/-- Modelled from the spec: a FieldDescriptor — wire name, the
collection-level constraint list (before the dive marker), the
element-level constraint list (after the dive marker), and an optional
default value. -/
structure FieldDescriptor where
  externalName : String
  constraints : List Constraint
  elementConstraints : List Constraint
  defaultValue : Option Json
deriving Repr

/-- Modelled from the spec: per-element evaluation after the dive
marker — each element of a collection is checked against every
element-level constraint, with `[i]` appended to the error path; all
failures are collected. -/
def checkElementConstraints (path : String) (cs : List Constraint) (v : Json) : List FieldError :=
  match v with
  | .arr xs =>
    xs.enum.flatMap
      (fun p => cs.flatMap (fun c => checkConstraint (path ++ "[" ++ toString p.1 ++ "]") c p.2))
  | _ => []

/-- Modelled from the spec: evaluating a present field — every
collection-level constraint in declaration order, then the element-level
block, collecting every failure without stopping at the first. -/
def checkPresentField (fd : FieldDescriptor) (v : Json) : List FieldError :=
  fd.constraints.flatMap (fun c => checkConstraint fd.externalName c v)
    ++ checkElementConstraints fd.externalName fd.elementConstraints v

/-- Modelled from the spec: unmarshal-style evaluation of one field.
Presence means the key existed in the source map.  Absent and required:
exactly one required error, no further constraints.  Absent, not
required, with a default: the default is applied and value constraints
are skipped.  Absent, not required, no default: under
strictMissingFields=true this is a missing-field error (the documented
strict default), under false the field silently takes its zero value. -/
def checkFieldUnmarshal (strict : Bool) (fd : FieldDescriptor) (fields : List (String × Json)) :
    List FieldError :=
  match fields.lookup fd.externalName with
  | some v => checkPresentField fd v
  | none =>
    if fd.constraints.contains .required then
      [⟨fd.externalName, "required", "field is required"⟩]
    else
      match fd.defaultValue with
      | some _ => []
      | none =>
        if strict then
          [⟨fd.externalName, "missing", "field is missing and has no default"⟩]
        else []

/-- Modelled from the spec: validate-existing-value evaluation of one
field — presence checks are skipped entirely (`required` is filtered
out) and only value-shape constraints run on the already-constructed
value. -/
def checkFieldValidate (fd : FieldDescriptor) (fields : List (String × Json)) :
    List FieldError :=
  let v := (fields.lookup fd.externalName).getD .null
  (fd.constraints.filter (fun c => c ≠ .required)).flatMap
      (fun c => checkConstraint fd.externalName c v)
    ++ checkElementConstraints fd.externalName fd.elementConstraints v

/-- Modelled from the spec: the Validation Engine for unmarshal-style
calls — every field descriptor is evaluated and all failures across the
value graph are concatenated in one pass. -/
def validateUnmarshalled (strict : Bool) (descs : List FieldDescriptor)
    (fields : List (String × Json)) : List FieldError :=
  descs.flatMap (fun fd => checkFieldUnmarshal strict fd fields)

/-- Modelled from the spec: the Validation Engine for
validate-existing-value calls. -/
def validateStruct (descs : List FieldDescriptor) (fields : List (String × Json)) :
    List FieldError :=
  descs.flatMap (fun fd => checkFieldValidate fd fields)

/-- Modelled from the spec: the error returned by the
validate-existing-value entry point — nil on success, a ValidationError
(the complete field-error collection) otherwise; by construction no
other error class can be produced by this entry point. -/
def validateValueEntry (descs : List FieldDescriptor) (fields : List (String × Json)) :
    Option (List FieldError) :=
  match validateStruct descs fields with
  | [] => none
  | errs => some errs

/-- Modelled from the spec: the outcome of the out-of-scope structural
decoder — structurally complete value, incomplete input (truncated
token, unterminated structure), or malformed bytes. -/
inductive DecodeResult where
  | incomplete
  | malformed (msg : String)
  | ok (v : Json)
deriving Repr

/-- Modelled from the spec: the two boundary error classes of the
unmarshal entry points — structural decode failures (syntax error, type
mismatch) as distinct constructors, never merged with the
ValidationError collection. -/
inductive UnmarshalError where
  | syntaxError (msg : String)
  | typeError (msg : String)
  | validationError (errs : List FieldError)
deriving Repr

/-- Modelled from the spec: the JSON-unmarshal-validation entry point,
parametrised by the collaborating structural decoder.  Decode failures
surface as syntax/type errors; a structurally decoded object is run
through the full Validation Engine and its complete error collection is
returned as a validationError when non-empty. -/
def unmarshalWith (decode : String → DecodeResult) (strict : Bool)
    (descs : List FieldDescriptor) (input : String) : Except UnmarshalError Json :=
  match decode input with
  | .incomplete => .error (.syntaxError "unexpected end of JSON input")
  | .malformed m => .error (.syntaxError m)
  | .ok (.obj fields) =>
    match validateUnmarshalled strict descs fields with
    | [] => .ok (.obj fields)
    | errs => .error (.validationError errs)
  | .ok _ => .error (.typeError "cannot unmarshal non-object into struct")

/-- Modelled from the spec: StreamState — buffered bytes, attempt
counter, completion flag and last parse error. -/
structure StreamState where
  buffered : String
  attemptCount : Nat
  isComplete : Bool
  lastError : Option String
deriving Repr, DecidableEq

/-- The initial state of a fresh (or reset) Stream Accumulator. -/
def StreamState.initial : StreamState :=
  { buffered := "", attemptCount := 0, isComplete := false, lastError := none }

/-- Modelled from the spec: the error slot of a Feed call — either a
structural failure of the completed buffer or the validation errors of a
structurally complete value. -/
inductive StreamError where
  | decodeErr (msg : String)
  | validationErr (errs : List FieldError)
deriving Repr, DecidableEq

/-- Modelled from the spec: `Feed(chunk)` of the Stream Accumulator.
The chunk is appended to the buffer and a structural decode of the full
buffer is attempted: incompleteness is NOT an error (no result, not
complete, nil error); a structurally complete object is validated in
full, the state reports complete, and validation errors (if any) are the
call's error. -/
def feed (decode : String → DecodeResult) (strict : Bool) (descs : List FieldDescriptor)
    (st : StreamState) (chunk : String) : Option Json × StreamState × Option StreamError :=
  let buf := st.buffered ++ chunk
  let n := st.attemptCount + 1
  match decode buf with
  | .incomplete =>
    (none,
     { buffered := buf, attemptCount := n, isComplete := false,
       lastError := some "incomplete JSON" },
     none)
  | .malformed m =>
    (none,
     { buffered := buf, attemptCount := n, isComplete := false, lastError := some m },
     some (.decodeErr m))
  | .ok (.obj fields) =>
    let errs := validateUnmarshalled strict descs fields
    (some (.obj fields),
     { buffered := buf, attemptCount := n, isComplete := true, lastError := none },
     if errs.isEmpty then none else some (.validationErr errs))
  | .ok _ =>
    (none,
     { buffered := buf, attemptCount := n, isComplete := false,
       lastError := some "non-object stream value" },
     some (.decodeErr "cannot unmarshal non-object into struct"))

/-- Modelled from the spec: `Reset()` clears the buffer and attempt
counter for reuse on a new logical stream. -/
def reset (_ : StreamState) : StreamState := StreamState.initial

/-- Modelled from the spec: one registered union variant — a
discriminator value and the variant type's descriptor set. -/
structure UnionVariant where
  discriminatorValue : String
  descriptors : List FieldDescriptor
deriving Repr

/-- Modelled from the spec: a UnionResolver — the discriminator field's
external name plus the ordered variant set. -/
structure UnionResolver where
  discriminatorField : String
  variants : List UnionVariant
deriving Repr

/-- Modelled from the spec: the error classes of `Resolve` — missing
discriminator key, unknown discriminator value (naming the received
value), or the matched variant's validation errors. -/
inductive ResolveError where
  | missingDiscriminator (field : String)
  | unknownDiscriminator (received : String)
  | validationErr (errs : List FieldError)
deriving Repr

/-- Exact-string-match variant lookup (no partial or prefix matching,
no default variant). -/
def findVariant (variants : List UnionVariant) (v : String) : Option UnionVariant :=
  variants.find? (fun uv => uv.discriminatorValue == v)

/-- Modelled from the spec: `Resolve(rawValue)` — extract the
discriminator from the raw decoded map; absent key fails with a
missing-discriminator error; a present value matching no registered
variant fails with an unknown-discriminator error naming the received
value; a match runs only that variant's Validation Engine. -/
def resolve (strict : Bool) (r : UnionResolver) (fields : List (String × Json)) :
    Except ResolveError Json :=
  match fields.lookup r.discriminatorField with
  | none => .error (.missingDiscriminator r.discriminatorField)
  | some (.str s) =>
    match findVariant r.variants s with
    | none => .error (.unknownDiscriminator s)
    | some uv =>
      match validateUnmarshalled strict uv.descriptors fields with
      | [] => .ok (.obj fields)
      | errs => .error (.validationErr errs)
  | some _ => .error (.missingDiscriminator r.discriminatorField)

/-- Modelled from the spec: the generated JSON-Schema-like document —
per-field keyword assignments plus the required-field list. -/
structure SchemaDoc where
  properties : List (String × List (String × String))
  requiredFields : List String
deriving Repr, DecidableEq

/-- Modelled from the spec: the deterministic, total mapping from one
constraint to its schema keywords. -/
def constraintKeywords : Constraint → List (String × String)
  | .required => []
  | .min n => [("minimum", toString n)]
  | .max n => [("maximum", toString n)]
  | .len n => [("length", toString n)]
  | .unique _ => [("uniqueItems", "true")]

/-- Modelled from the spec: `Generate(descriptors)` — the deterministic
schema document derived from the cached field descriptors. -/
def generateSchema (descs : List FieldDescriptor) : SchemaDoc :=
  { properties :=
      descs.map (fun fd => (fd.externalName, fd.constraints.flatMap constraintKeywords)),
    requiredFields :=
      (descs.filter (fun fd => fd.constraints.contains .required)).map
        (fun fd => fd.externalName) }

/-- Modelled from the spec: the per-type schema cache entry.
`generations` counts how many times the expensive generation path ran,
making the cache-hit property observable in the model. -/
structure SchemaCache where
  cached : Option SchemaDoc
  generations : Nat
deriving Repr, DecidableEq

/-- The empty schema cache, before any `Schema(T)` call. -/
def SchemaCache.empty : SchemaCache := { cached := none, generations := 0 }

/-- Modelled from the spec: one `Schema(T)` call — a cache hit returns
the identical cached document; only a miss runs the generation path and
stores its result. -/
def schemaCall (descs : List FieldDescriptor) (c : SchemaCache) : SchemaDoc × SchemaCache :=
  match c.cached with
  | some d => (d, c)
  | none =>
    let d := generateSchema descs
    (d, { cached := some d, generations := c.generations + 1 })

/-- N successive `Schema(T)` calls, collecting every returned document
and the final cache state. -/
def schemaCalls (descs : List FieldDescriptor) : Nat → SchemaCache → List SchemaDoc × SchemaCache
  | 0, c => ([], c)
  | n + 1, c =>
    let (d, c') := schemaCall descs c
    let (ds, c'') := schemaCalls descs n c'
    (d :: ds, c'')

/-- Removing the `required` constraint from a field descriptor, used to
state that validate-existing-value calls never consult it. -/
def stripRequired (fd : FieldDescriptor) : FieldDescriptor :=
  { fd with constraints := fd.constraints.filter (fun c => c ≠ Constraint.required) }

/-! Concrete fixtures taken from the documented examples. -/

/-- The documented slice field `files` declared `min=1,max=3,dive,min=2`. -/
def filesField : FieldDescriptor :=
  { externalName := "files", constraints := [.min 1, .max 3],
    elementConstraints := [.min 2], defaultValue := none }

/-- The documented input `["a","bb","ccc","dddd"]` for the dive example. -/
def filesInput : List (String × Json) :=
  [("files", .arr [.str "a", .str "bb", .str "ccc", .str "dddd"])]

/-- The documented slice-of-structs field `users` declared `unique=Email`. -/
def usersField : FieldDescriptor :=
  { externalName := "users", constraints := [.unique (some "Email")],
    elementConstraints := [], defaultValue := none }

/-- The documented input with a duplicate email at index 2. -/
def usersInput : List (String × Json) :=
  [("users", .arr [ .obj [("Email", .str "x@x.com")]
                  , .obj [("Email", .str "y@y.com")]
                  , .obj [("Email", .str "x@x.com")] ])]

/-- A collection field carrying only a `unique` constraint (with an
arbitrary projection), for the empty-collection property. -/
def itemsField (proj : Option String) : FieldDescriptor :=
  { externalName := "items", constraints := [.unique proj],
    elementConstraints := [], defaultValue := none }

/-- The documented `Config.APIKey` field declared `required`. -/
def apiKeyField : FieldDescriptor :=
  { externalName := "apiKey", constraints := [.required],
    elementConstraints := [], defaultValue := none }

/-- The documented `Config.Host` field declared `required`. -/
def hostField : FieldDescriptor :=
  { externalName := "host", constraints := [.required],
    elementConstraints := [], defaultValue := none }

/-- The documented `Config.Port` field carrying no constraint and no
default. -/
def portField : FieldDescriptor :=
  { externalName := "port", constraints := [],
    elementConstraints := [], defaultValue := none }

/-- The documented streaming binding `{role string required, content
string required}`: the `role` field. -/
def roleField : FieldDescriptor :=
  { externalName := "role", constraints := [.required],
    elementConstraints := [], defaultValue := none }

/-- The `content` field of the streaming binding. -/
def contentField : FieldDescriptor :=
  { externalName := "content", constraints := [.required],
    elementConstraints := [], defaultValue := none }

/-- The descriptor set of the streaming binding. -/
def msgFields : List FieldDescriptor := [roleField, contentField]

/-- The documented first streamed chunk (an unterminated object). -/
def demoChunk1 : String := "\x7b\"role\":\"user\""

/-- The documented second streamed chunk, completing the object. -/
def demoChunk2 : String := ",\"content\":\"hi\"\x7d"

/-- A concrete collaborator decoder for the streaming example: the full
two-chunk buffer decodes to the message object, every other buffer is
structurally incomplete. -/
def demoDecode (s : String) : DecodeResult :=
  if s == demoChunk1 ++ demoChunk2 then
    .ok (.obj [("role", .str "user"), ("content", .str "hi")])
  else .incomplete

/-- A concrete collaborator decoder that always reports malformed
bytes. -/
def badDecode : String → DecodeResult := fun _ => .malformed "invalid character"

/-- The documented union resolver over variants keyed by `type: "a"`
and `type: "b"`. -/
def demoUnion : UnionResolver :=
  { discriminatorField := "type",
    variants :=
      [ { discriminatorValue := "a", descriptors := [roleField] }
      , { discriminatorValue := "b", descriptors := [contentField] } ] }

end Pedantigo

namespace Pedantigo

/-- C5: for the slice field declared `min=1,max=3,dive,min=2` and input
`["a","bb","ccc","dddd"]`, validation produces exactly two errors — one
collection-level size error (4 exceeds max 3) and one element-level
error at index 0 (length 1 below min 2); no error mentions index 3. -/
theorem dive_two_errors :
    validateUnmarshalled true [filesField] filesInput =
      [⟨"files", "max", "must be at most 3"⟩, ⟨"files[0]", "min", "must be at least 2"⟩] ∧
    (validateUnmarshalled true [filesField] filesInput).length = 2 ∧
    ∀ e ∈ validateUnmarshalled true [filesField] filesInput, e.path ≠ "files[3]" := by
  refine ⟨by decide, by decide, by decide⟩

/-- Witness for C5: the collection-level max error is among the two
reported errors and does not point at index 3. -/
theorem dive_two_errors_witness :
    (FieldError.mk "files" "max" "must be at most 3").path ≠ "files[3]" :=
  dive_two_errors.2.2 (FieldError.mk "files" "max" "must be at most 3") (by decide)

/-- C8: `unique=Email` on the documented slice of structs extracts the
`Email` field from each element and compares those projections; the
input with `x@x.com` at indices 0 and 2 yields exactly one uniqueness
violation, and it references index 2, the duplicate element. -/
theorem unique_projection_duplicate :
    validateUnmarshalled true [usersField] usersInput =
      [⟨"users[2]", "unique", "duplicate value"⟩] := by
  decide

/-- C9: an empty collection always satisfies the `unique` constraint,
with or without a field projection — no element can be a duplicate. -/
theorem unique_empty_ok (proj : Option String) (path : String) :
    checkConstraint path (.unique proj) (.arr []) = [] ∧
    validateStruct [itemsField proj] [("items", Json.arr [])] = [] ∧
    validateUnmarshalled true [itemsField proj] [("items", Json.arr [])] = [] := by
  refine ⟨rfl, rfl, rfl⟩

/-- C4: the validate-existing-value entry point skips presence checks
entirely — deleting every `required` constraint never changes its
result — so the required `apiKey` field holding the empty string passes
Validate, while the same field missing from the JSON fails Unmarshal
(under either strictness) with exactly one required error. -/
theorem validate_skips_presence :
    validateStruct [apiKeyField] [("apiKey", Json.str "")] = [] ∧
    validateUnmarshalled true [apiKeyField] [] =
      [⟨"apiKey", "required", "field is required"⟩] ∧
    validateUnmarshalled false [apiKeyField] [] =
      [⟨"apiKey", "required", "field is required"⟩] ∧
    ∀ (descs : List FieldDescriptor) (fields : List (String × Json)),
      validateStruct (descs.map stripRequired) fields = validateStruct descs fields := by
  refine ⟨rfl, rfl, rfl, ?_⟩
  intro descs fields
  unfold validateStruct
  rw [List.flatMap_map]
  refine List.flatMap_congr ?_
  intro fd _
  unfold checkFieldValidate stripRequired
  simp [List.filter_filter]

/-- C1: both entry points collect every violated constraint across the
whole value graph in one pass — every error produced for any present
field (including its element-level block) appears in the returned
ValidationResult, and the result is empty exactly when every field's
evaluation produced no error; there is no first-error-only mode. -/
theorem allViolationsCollected (strict : Bool) (descs : List FieldDescriptor)
    (fields : List (String × Json)) :
    (∀ fd ∈ descs, ∀ v, fields.lookup fd.externalName = some v →
      ∀ e ∈ checkPresentField fd v, e ∈ validateUnmarshalled strict descs fields) ∧
    (validateUnmarshalled strict descs fields = [] ↔
      ∀ fd ∈ descs, checkFieldUnmarshal strict fd fields = []) ∧
    (∀ fd ∈ descs, ∀ e ∈ checkFieldValidate fd fields, e ∈ validateStruct descs fields) ∧
    (validateStruct descs fields = [] ↔
      ∀ fd ∈ descs, checkFieldValidate fd fields = []) := by
  refine ⟨?_, ?_, ?_, ?_⟩
  · intro fd hfd v hv e he
    unfold validateUnmarshalled
    refine List.mem_flatMap.mpr ⟨fd, hfd, ?_⟩
    unfold checkFieldUnmarshal
    rw [hv]
    exact he
  · unfold validateUnmarshalled
    exact List.flatMap_eq_nil_iff
  · intro fd hfd e he
    unfold validateStruct
    exact List.mem_flatMap.mpr ⟨fd, hfd, he⟩
  · unfold validateStruct
    exact List.flatMap_eq_nil_iff

/-- Witness for C1 at the documented dive example: the collection-level
max error produced for the present `files` field is a member of the full
result, and the result is non-empty. -/
theorem allViolationsCollected_witness :
    FieldError.mk "files" "max" "must be at most 3" ∈
      validateUnmarshalled true [filesField] filesInput := by
  refine (allViolationsCollected true [filesField] filesInput).1 filesField
    (List.mem_singleton.mpr rfl)
    (Json.arr [.str "a", .str "bb", .str "ccc", .str "dddd"]) rfl
    (FieldError.mk "files" "max" "must be at most 3") (by decide)

/-- C7 counterexample: with `strictMissingFields = true`, the `port`
field — which carries no `required` constraint and no default — is
turned into an error merely by being absent from the JSON, contradicting
the claim that the flag never makes required-less fields error. -/
theorem strictMissing_counterexample :
    validateUnmarshalled true [hostField, portField] [("host", Json.str "localhost")] =
      [⟨"port", "missing", "field is missing and has no default"⟩] ∧
    portField.constraints.contains .required = false := by
  refine ⟨by decide, by decide⟩

/-- C7 (amended): with the flag false, an absent required-less field
silently takes its zero value and contributes no error; with the flag
true, an absent field with no default is an error even without a
`required` constraint; the flag only affects fields that are absent,
not required and default-less — present fields, required fields and
defaulted fields behave identically under both settings. -/
theorem strictMissing_semantics :
    validateUnmarshalled false [hostField, portField] [("host", Json.str "localhost")] = [] ∧
    validateUnmarshalled true [hostField, portField] [("host", Json.str "localhost")] =
      [⟨"port", "missing", "field is missing and has no default"⟩] ∧
    (∀ (fd : FieldDescriptor) (fields : List (String × Json)),
      (fields.lookup fd.externalName).isSome = true →
        checkFieldUnmarshal true fd fields = checkFieldUnmarshal false fd fields) ∧
    (∀ (fd : FieldDescriptor) (fields : List (String × Json)),
      fd.constraints.contains .required = true →
        checkFieldUnmarshal true fd fields = checkFieldUnmarshal false fd fields) ∧
    (∀ (fd : FieldDescriptor) (fields : List (String × Json)),
      fd.defaultValue.isSome = true →
        checkFieldUnmarshal true fd fields = checkFieldUnmarshal false fd fields) := by
  refine ⟨by decide, by decide, ?_, ?_, ?_⟩
  · intro fd fields hsome
    unfold checkFieldUnmarshal
    cases h : fields.lookup fd.externalName with
    | some v => rfl
    | none => rw [h] at hsome; simp at hsome
  · intro fd fields hreq
    unfold checkFieldUnmarshal
    cases fields.lookup fd.externalName with
    | some v => rfl
    | none =>
      have hmem : Constraint.required ∈ fd.constraints := by simpa using hreq
      simp [hmem]
  · intro fd fields hdef
    unfold checkFieldUnmarshal
    cases fields.lookup fd.externalName with
    | some v => rfl
    | none =>
      cases hc : fd.constraints.contains .required
      · cases h : fd.defaultValue with
        | some d => rfl
        | none => rw [h] at hdef; simp at hdef
      · rfl

/-- Witness for C7's amended theorem: the present `host` field and the
required `host` field each evaluate identically under both flag
settings. -/
theorem strictMissing_semantics_witness :
    checkFieldUnmarshal true hostField [("host", Json.str "localhost")] =
      checkFieldUnmarshal false hostField [("host", Json.str "localhost")] ∧
    checkFieldUnmarshal true hostField [] = checkFieldUnmarshal false hostField [] := by
  refine ⟨strictMissing_semantics.2.2.1 hostField [("host", Json.str "localhost")] rfl,
          strictMissing_semantics.2.2.2.1 hostField [] rfl⟩

/-- C2: a Feed whose buffer is structurally incomplete returns no
result, an incomplete state and a nil error; a Feed whose buffer
decodes structurally runs the full Validation Engine, reports
isComplete = true, and returns the validation errors (if any) as the
call's error — incompleteness and invalidity are kept apart. -/
theorem feed_incomplete_vs_complete (decode : String → DecodeResult) (strict : Bool)
    (descs : List FieldDescriptor) (st : StreamState) (chunk : String) :
    (decode (st.buffered ++ chunk) = .incomplete →
      feed decode strict descs st chunk =
        (none,
         { buffered := st.buffered ++ chunk, attemptCount := st.attemptCount + 1,
           isComplete := false, lastError := some "incomplete JSON" },
         none)) ∧
    (∀ fs, decode (st.buffered ++ chunk) = .ok (.obj fs) →
      feed decode strict descs st chunk =
        (some (.obj fs),
         { buffered := st.buffered ++ chunk, attemptCount := st.attemptCount + 1,
           isComplete := true, lastError := none },
         if (validateUnmarshalled strict descs fs).isEmpty then none
         else some (.validationErr (validateUnmarshalled strict descs fs)))) := by
  constructor
  · intro h
    simp [feed, h]
  · intro fs h
    simp [feed, h]

/-- Witness for C2 at the documented two-chunk stream: the first feed is
incomplete with nil error, the second feed completes and validates
cleanly. -/
theorem feed_incomplete_vs_complete_witness :
    feed demoDecode true msgFields StreamState.initial demoChunk1 =
      (none,
       { buffered := "" ++ demoChunk1, attemptCount := 1, isComplete := false,
         lastError := some "incomplete JSON" },
       none) ∧
    feed demoDecode true msgFields
        { buffered := "" ++ demoChunk1, attemptCount := 1, isComplete := false,
          lastError := some "incomplete JSON" } demoChunk2 =
      (some (.obj [("role", .str "user"), ("content", .str "hi")]),
       { buffered := ("" ++ demoChunk1) ++ demoChunk2, attemptCount := 2,
         isComplete := true, lastError := none },
       none) := by
  constructor
  · exact (feed_incomplete_vs_complete demoDecode true msgFields
      StreamState.initial demoChunk1).1 rfl
  · have h := (feed_incomplete_vs_complete demoDecode true msgFields
      { buffered := "" ++ demoChunk1, attemptCount := 1, isComplete := false,
        lastError := some "incomplete JSON" } demoChunk2).2
      [("role", .str "user"), ("content", .str "hi")] rfl
    rw [h]
    rfl

/-- C3: Resolve with an absent discriminator key fails with a
missing-discriminator error (no default variant); a present value that
matches no registered variant (exact string match) fails with an
unknown-discriminator error naming the received value, falling back to
no variant; a matched variant reports only that variant's validation
errors. -/
theorem resolve_discriminator_cases (strict : Bool) (r : UnionResolver)
    (fields : List (String × Json)) :
    (fields.lookup r.discriminatorField = none →
      resolve strict r fields = .error (.missingDiscriminator r.discriminatorField)) ∧
    (∀ s, fields.lookup r.discriminatorField = some (.str s) →
      (findVariant r.variants s = none →
        resolve strict r fields = .error (.unknownDiscriminator s)) ∧
      (∀ uv, findVariant r.variants s = some uv →
        (validateUnmarshalled strict uv.descriptors fields = [] →
          resolve strict r fields = .ok (.obj fields)) ∧
        (∀ err errs, validateUnmarshalled strict uv.descriptors fields = err :: errs →
          resolve strict r fields = .error (.validationErr (err :: errs))))) := by
  constructor
  · intro h
    simp [resolve, h]
  · intro s hs
    constructor
    · intro hnone
      simp [resolve, hs, hnone]
    · intro uv huv
      constructor
      · intro hok
        simp [resolve, hs, huv, hok]
      · intro err errs herrs
        simp [resolve, hs, huv, herrs]

/-- Witness for C3: the documented resolver over `type: "a"` and
`type: "b"` rejects `{"type":"c"}` with an unknown-discriminator error
naming `"c"`. -/
theorem resolve_discriminator_cases_witness :
    resolve true demoUnion [("type", Json.str "c")] =
      .error (.unknownDiscriminator "c") :=
  ((resolve_discriminator_cases true demoUnion [("type", Json.str "c")]).2 "c" rfl).1 rfl

/-- Helper: every call on a warm cache is a hit — the stored document is
returned unchanged and the generation counter does not move. -/
theorem schemaCalls_cached (descs : List FieldDescriptor) (d : SchemaDoc) (g : Nat) :
    ∀ m, schemaCalls descs m { cached := some d, generations := g } =
      (List.replicate m d, { cached := some d, generations := g })
  | 0 => rfl
  | m + 1 => by
    unfold schemaCalls schemaCall
    simp [schemaCalls_cached descs d g m, List.replicate_succ]

/-- C6: N calls of `Schema(T)` from a cold cache all return the one
generated document (deep-equal across calls), the cache afterwards holds
exactly that document, and the generation path ran exactly once — the
2nd..Nth calls are cache hits returning the stored document itself. -/
theorem schema_idempotent_cached (descs : List FieldDescriptor) (n : Nat) (h : 1 ≤ n) :
    schemaCalls descs n SchemaCache.empty =
      (List.replicate n (generateSchema descs),
       { cached := some (generateSchema descs), generations := 1 }) := by
  obtain ⟨m, rfl⟩ : ∃ m, n = m + 1 := ⟨n - 1, (Nat.succ_pred_eq_of_pos h).symm⟩
  unfold schemaCalls schemaCall SchemaCache.empty
  simp [schemaCalls_cached descs (generateSchema descs) 1 m, List.replicate_succ]

/-- Witness for C6 at the documented example: three `Schema` calls for
the apiKey type return three copies of the generated document with a
single generation. -/
theorem schema_idempotent_cached_witness :
    schemaCalls [apiKeyField] 3 SchemaCache.empty =
      (List.replicate 3 (generateSchema [apiKeyField]),
       { cached := some (generateSchema [apiKeyField]), generations := 1 }) :=
  schema_idempotent_cached [apiKeyField] 3 (by decide)

/-- C10: every non-nil error of the validate-existing-value entry point
is the complete ValidationError collection of the Validation Engine;
structural decode failures (incomplete or malformed bytes) surface from
the unmarshal entry point as the distinct syntax-error class, and a
validationError outcome can only arise from a structurally decoded
object, carrying exactly the engine's field errors — the two classes
are never merged. -/
theorem error_classes_distinct (descs : List FieldDescriptor)
    (fields : List (String × Json)) (decode : String → DecodeResult)
    (strict : Bool) (input : String) :
    (∀ errs, validateValueEntry descs fields = some errs →
      errs = validateStruct descs fields ∧ errs ≠ []) ∧
    (decode input = .incomplete →
      unmarshalWith decode strict descs input =
        .error (.syntaxError "unexpected end of JSON input")) ∧
    (∀ m, decode input = .malformed m →
      unmarshalWith decode strict descs input = .error (.syntaxError m)) ∧
    (∀ errs, unmarshalWith decode strict descs input = .error (.validationError errs) →
      ∃ fs, decode input = .ok (.obj fs) ∧
        errs = validateUnmarshalled strict descs fs ∧ errs ≠ []) := by
  refine ⟨?_, ?_, ?_, ?_⟩
  · intro errs herrs
    unfold validateValueEntry at herrs
    cases hv : validateStruct descs fields with
    | nil => rw [hv] at herrs; exact absurd herrs (by simp)
    | cons e es =>
      rw [hv] at herrs
      simp only [Option.some.injEq] at herrs
      subst herrs
      exact ⟨rfl, by simp⟩
  · intro h
    simp [unmarshalWith, h]
  · intro m h
    simp [unmarshalWith, h]
  · intro errs herrs
    cases hd : decode input with
    | incomplete => simp [unmarshalWith, hd] at herrs
    | malformed m => simp [unmarshalWith, hd] at herrs
    | ok v =>
      cases v with
      | obj fs =>
        cases hv : validateUnmarshalled strict descs fs with
        | nil => simp [unmarshalWith, hd, hv] at herrs
        | cons e es =>
          have hcall : unmarshalWith decode strict descs input =
              .error (.validationError (e :: es)) := by
            simp [unmarshalWith, hd, hv]
          rw [hcall] at herrs
          simp only [Except.error.injEq, UnmarshalError.validationError.injEq] at herrs
          subst herrs
          exact ⟨fs, rfl, hv.symm, by simp⟩
      | null => simp [unmarshalWith, hd] at herrs
      | bool b => simp [unmarshalWith, hd] at herrs
      | num n => simp [unmarshalWith, hd] at herrs
      | str s => simp [unmarshalWith, hd] at herrs
      | arr xs => simp [unmarshalWith, hd] at herrs

/-- Witness for C10: the dive example's complete error collection is
what the validate entry point wraps, and the always-malformed decoder
surfaces as a syntax error, not as validation errors. -/
theorem error_classes_distinct_witness :
    ([⟨"files", "max", "must be at most 3"⟩,
      ⟨"files[0]", "min", "must be at least 2"⟩] : List FieldError) =
        validateStruct [filesField] filesInput ∧
    ([⟨"files", "max", "must be at most 3"⟩,
      ⟨"files[0]", "min", "must be at least 2"⟩] : List FieldError) ≠ [] := by
  exact (error_classes_distinct [filesField] filesInput badDecode true "x").1
    [⟨"files", "max", "must be at most 3"⟩, ⟨"files[0]", "min", "must be at least 2"⟩]
    rfl

end Pedantigo
